import Mathlib

/-!
# Verification of `cleanup.py` (LupusCoding/pyTools)

Shallow embedding of the retention-policy sweeper in `src/cleanup.py` and
proofs of the specification's testable properties about it.

Modelling conventions:

* Python naive `datetime` values are modelled by `PyDateTime`: a day ordinal
  (days since an arbitrary epoch, proleptic calendar) together with the
  second-of-day and microsecond components.  Building the string
  `"Y-M-D 23:59:59"` from `datetime.now()` and re-parsing it with `strptime`
  (cleanup.py lines 40-41) round-trips exactly, so it is modelled as keeping
  the day ordinal and setting the time of day to 23:59:59.000000.
  `datetime + timedelta(days=k)` on naive datetimes shifts the value by
  exactly `k * 86400` seconds, i.e. it adds `k` to the day ordinal and keeps
  the time of day.
* `datetime.timestamp()` and `os.path.getctime` are modelled on a common
  integer time axis (whole seconds); the constant local-UTC offset that
  Python's `timestamp()` applies is abstracted to zero -- every claim under
  study only relates entry timestamps to the computed cutoff, never to
  absolute calendar values, so a constant shift is irrelevant.  File
  status-change times are modelled at whole-second granularity (`Int`),
  which is enough to express every boundary case the claims mention.
* The filesystem subtree under the swept path is modelled by `FsEntry`
  (a named regular file or a named directory with its own children, each
  carrying its status-change time) and the swept path itself by `PathState`
  (missing / a plain file / a directory with children).
* `print` output is modelled by accumulating the printed lines in order.
-/

/-! ## Time model (Python `datetime`) -/

/-- A naive Python `datetime`: day ordinal plus time of day. -/
structure PyDateTime where
  day : Int
  sec : Int
  micro : Int
  deriving DecidableEq, Repr

/-- `datetime.timestamp()`, at whole-second granularity with the constant
local-UTC offset abstracted to zero (see the module docstring). -/
def pyTimestamp (d : PyDateTime) : Int :=
  d.day * 86400 + d.sec

/-- Lines 40-41 of `cleanup.py`: format the current date as
`"Y-M-D 23:59:59"` and parse it back with `strptime`; the round trip yields
the same calendar day with time of day 23:59:59 and microseconds dropped. -/
def truncToEndOfDay (d : PyDateTime) : PyDateTime :=
  { day := d.day, sec := 23 * 3600 + 59 * 60 + 59, micro := 0 }

/-- `datetime + timedelta(days=k)` on a naive datetime. -/
def pyAddDays (d : PyDateTime) (k : Int) : PyDateTime :=
  { d with day := d.day + k }

/-- `get_time_before(days)` (cleanup.py lines 31-43), with the ambient
`datetime.now()` passed explicitly as `now`. -/
def get_time_before (now : PyDateTime) (days : Int) : PyDateTime :=
  pyAddDays (truncToEndOfDay now) (days * -1)

/-! ## Filesystem model -/

/-- One filesystem entry below the swept path: a regular file or a
directory with its own children.  `ctime` is the status-change time
(`os.path.getctime`). -/
inductive FsEntry where
  | file (name : String) (ctime : Int)
  | dir (name : String) (ctime : Int) (children : List FsEntry)

def fsName : FsEntry → String
  | .file n _ => n
  | .dir n _ _ => n

def fsCtime : FsEntry → Int
  | .file _ c => c
  | .dir _ c _ => c

/-- `os.path.isfile` on an existing entry. -/
def isFileEntry : FsEntry → Bool
  | .file _ _ => true
  | .dir _ _ _ => false

/-- `os.path.isdir` on an existing entry. -/
def isDirEntry : FsEntry → Bool
  | .file _ _ => false
  | .dir _ _ _ => true

/-- The state of the swept path itself. -/
inductive PathState where
  | missing
  | plainFile (ctime : Int)
  | directory (children : List FsEntry)

/-- `os.path.isdir` on the swept path. -/
def isDirState : PathState → Bool
  | .directory _ => true
  | _ => false

/-- The children of the swept path (empty unless it is a directory). -/
def stateChildren : PathState → List FsEntry
  | .directory cs => cs
  | _ => []

/-- Python exceptions that the modelled fragment can raise. -/
inductive PyErr where
  | stopIteration
  | notADirectoryError
  | valueError
  deriving DecidableEq, Repr

/-- `get_files_by_path` (cleanup.py lines 45-55): `next(os.walk(path))[2]`.
`os.walk` is a generator whose `scandir` errors are swallowed by default
(`onerror=None`), so on a missing path or a non-directory it yields nothing
and `next` raises `StopIteration`. -/
def get_files_by_path : PathState → Except PyErr (List String)
  | .directory cs => .ok ((cs.filter fun e => isFileEntry e).map fsName)
  | _ => .error .stopIteration

/-- `get_subdirs_by_path` (cleanup.py lines 57-67): `next(os.walk(path))[1]`;
same `StopIteration` behaviour on a bad path as `get_files_by_path`. -/
def get_subdirs_by_path : PathState → Except PyErr (List String)
  | .directory cs => .ok ((cs.filter fun e => isDirEntry e).map fsName)
  | _ => .error .stopIteration

/-- `os.path.join(path, name)` for a name with no separators of its own:
append a `/` unless `path` already ends with one. -/
def pathJoin (p n : String) : String :=
  if p.data.getLast? = some '/' then p ++ n else p ++ "/" ++ n

/-- `is_older(file_path, comp_time)` (cleanup.py lines 69-80), with the
`os.path.getctime(file_path)` read passed in as `f_ctime`: a strict
less-than comparison against `comp_time.timestamp()`. -/
def is_older (f_ctime : Int) (comp_time : PyDateTime) : Bool :=
  f_ctime < pyTimestamp comp_time

/-! ## The two sweeps -/

/-- Result of one sweep: the surviving children of the swept directory, the
returned counter `cnt`, the printed per-entry lines, and -- as proof
instrumentation only, influencing nothing else -- the list of paths that
were passed to `is_older` (age-tested). -/
structure SweepOut where
  children : List FsEntry
  cnt : Nat
  log : List String
  tested : List String

/-- The non-dry-run removal line printed by `rm_files_in`
(`print('Removing file', f_path, '...')`). -/
def fileRemoveMsg (p : String) : String :=
  "Removing file " ++ p ++ " ..."

/-- The non-dry-run removal line printed by `rm_folders_in`
(`print('Removing directory', d_path, '...')`). -/
def dirRemoveMsg (p : String) : String :=
  "Removing directory " ++ p ++ " ..."

/-- One iteration of the loop shared by `rm_files_in` (lines 94-105) and
`rm_folders_in` (lines 120-131); `isKind` is the per-entry re-verification
(`os.path.isfile` resp. `os.path.isdir`) and `removeMsg` the removal line.
In order: join the name onto the path, re-verify the kind on disk (skip
silently otherwise), age-test with `is_older`, then remove (`os.remove`
resp. `shutil.rmtree` -- dropping the entry drops its whole subtree) or
just report when `dryrun` is set, incrementing the counter either way. -/
def rmEntryStep (isKind : FsEntry → Bool) (removeMsg : String → String)
    (path : String) (rm_time : PyDateTime) (dryrun : Bool)
    (st : SweepOut) (name : String) : SweepOut :=
  let e_path := pathJoin path name
  match st.children.find? (fun e => fsName e == name) with
  | some e =>
    if isKind e then
      let st1 : SweepOut := { st with tested := st.tested ++ [e_path] }
      if is_older (fsCtime e) rm_time then
        if dryrun then
          { st1 with cnt := st1.cnt + 1, log := st1.log ++ ["Would remove " ++ e_path] }
        else
          { st1 with children := st1.children.eraseP (fun x => fsName x == name),
                     cnt := st1.cnt + 1,
                     log := st1.log ++ [removeMsg e_path] }
      else st1
    else st
  | none => st

/-- `rm_files_in(path, days, dryun)` (cleanup.py lines 82-106), with the
ambient clock passed as `now` and the swept path's state as `p`.  The
`stateChildren` seed is only reached when `p` is a directory (otherwise the
listing's error is returned first). -/
def rm_files_in (now : PyDateTime) (path : String) (p : PathState)
    (days : Int) (dryun : Bool) : Except PyErr SweepOut :=
  let rm_time := get_time_before now days
  match get_files_by_path p with
  | .error e => .error e
  | .ok files =>
      .ok (files.foldl (rmEntryStep isFileEntry fileRemoveMsg path rm_time dryun)
            ⟨stateChildren p, 0, [], []⟩)

/-- `rm_folders_in(path, days, dryrun)` (cleanup.py lines 108-132). -/
def rm_folders_in (now : PyDateTime) (path : String) (p : PathState)
    (days : Int) (dryrun : Bool) : Except PyErr SweepOut :=
  let rm_time := get_time_before now days
  match get_subdirs_by_path p with
  | .error e => .error e
  | .ok subdirs =>
      .ok (subdirs.foldl (rmEntryStep isDirEntry dirRemoveMsg path rm_time dryrun)
            ⟨stateChildren p, 0, [], []⟩)

/-! ## Projections used to state properties of a sweep's outcome -/

def outChildren : Except PyErr SweepOut → List FsEntry
  | .ok o => o.children
  | .error _ => []

def outCnt : Except PyErr SweepOut → Nat
  | .ok o => o.cnt
  | .error _ => 0

def outLog : Except PyErr SweepOut → List String
  | .ok o => o.log
  | .error _ => []

def outTested : Except PyErr SweepOut → List String
  | .ok o => o.tested
  | .error _ => []

/-! ## Descendants (entries nested two or more levels below the target) -/

mutual

/-- All entries strictly inside `e` (its children, their children, ...). -/
def strictDescendants : FsEntry → List FsEntry
  | .file _ _ => []
  | .dir _ _ cs => cs ++ descList cs

/-- All entries strictly inside some element of `l`; for `l` the children of
the swept directory these are exactly the entries nested two or more levels
below the target. -/
def descList : List FsEntry → List FsEntry
  | [] => []
  | e :: es => strictDescendants e ++ descList es

end

/-! ## The option parser and orchestrator (`__main__`, cleanup.py lines 134-197)

Python strings manipulated by the parser are handled through their
character lists so that every operation is an ordinary structural
function: `pyTake s n` is `s[0:n]`, `pyDrop s n` is `s[n:]`, `pySplitEq`
is `.split('=')` and `pyLower` is `.lower()` (the option values compared
against `"yes"` are ASCII). -/

def pyTake (s : String) (n : Nat) : String := ⟨s.data.take n⟩

def pyDrop (s : String) (n : Nat) : String := ⟨s.data.drop n⟩

def pySplitEq (s : String) : List String := (s.data.splitOn '=').map (⟨·⟩)

def pyLower (s : String) : String := ⟨s.data.map Char.toLower⟩

/-- An unsigned run of decimal digits, or `none` if empty or non-numeric. -/
def decDigits? (ds : List Char) : Option Nat :=
  if ds.isEmpty then none
  else ds.foldl (fun acc c => acc.bind fun n =>
    if c.isDigit then some (n * 10 + (c.toNat - 48)) else none) (some 0)

/-- Python `int(s)`, with `none` modelling an uncaught `ValueError`.
Approximates CPython's `int` (which additionally strips surrounding
whitespace and allows `_` digit separators) on the plain signed decimal
forms; no claim under study depends on the difference. -/
def pyInt? (s : String) : Option Int :=
  match s.data with
  | '-' :: ds => (decDigits? ds).map fun n => -(n : Int)
  | '+' :: ds => (decDigits? ds).map fun n => (n : Int)
  | ds => (decDigits? ds).map fun n => (n : Int)

/-- The configuration assembled by `__main__` (defaults, lines 136-141). -/
structure Config where
  path : String
  rm_files : Bool
  rm_files_after : Int
  rm_folders : Bool
  rm_folders_after : Int
  dryrun : Bool
  deriving DecidableEq, Repr

def defaultConfig : Config :=
  { path := "/tmp/", rm_files := true, rm_files_after := 30,
    rm_folders := false, rm_folders_after := 10, dryrun := false }

/-- The long-option dispatch (cleanup.py lines 150-171): `opt` is
`arg[2:].split('=')`; with a value (`len(opt) > 1`) the five recognised
names parse their value (booleans by case-insensitive comparison with
`"yes"`, thresholds by `int`); without a value the three boolean options
switch on; anything unrecognised falls through silently. -/
def applyLongOpt (c : Config) (opt : List String) : Option Config :=
  match opt with
  | o :: v :: _ =>
    if o = "files" then some { c with rm_files := pyLower v == "yes" }
    else if o = "files_after" then (pyInt? v).map fun n => { c with rm_files_after := n }
    else if o = "folders" then some { c with rm_folders := pyLower v == "yes" }
    else if o = "folders_after" then (pyInt? v).map fun n => { c with rm_folders_after := n }
    else if o = "dryrun" then some { c with dryrun := pyLower v == "yes" }
    else some c
  | [o] =>
    if o = "files" then some { c with rm_files := true }
    else if o = "folders" then some { c with rm_folders := true }
    else if o = "dryrun" then some { c with dryrun := true }
    else some c
  | [] => some c

/-- One iteration of the argument loop (cleanup.py lines 145-177).  The
source has no `elif` between the long-option block and the `-` check, so
after a long option is processed the `arg[0:1] == '-'` test still runs
(and, the argument starting with `--`, always `continue`s); only an
argument that starts with neither is assigned to `path`.  `none` models
an uncaught `ValueError` from `int`. -/
def processArg (c : Config) (arg : String) : Option Config :=
  if arg = "--" then some c
  else
    (if pyTake arg 2 = "--" then applyLongOpt c (pySplitEq (pyDrop arg 2))
     else some c).bind fun c1 =>
      if pyTake arg 1 = "-" then some c1
      else some { c1 with path := arg }

/-- The whole option scan (cleanup.py lines 144-177). -/
def parse_args (args : List String) : Option Config :=
  args.foldlM processArg defaultConfig

/-- The five long-option names `__main__` recognises. -/
def recognizedLongOpts : List String :=
  ["files", "files_after", "folders", "folders_after", "dryrun"]

/-- Outcome of the sweep phase of `__main__` (cleanup.py lines 179-195):
final state of the target path, the uncaught exception if any, the two
counts, and the printed lines. -/
structure RunOut where
  dirState : PathState
  err : Option PyErr
  files_removed : Nat
  folders_removed : Nat
  log : List String

/-- The folders phase of `__main__` (lines 189-194) and the final print;
`fi_cnt` and `lg` carry what the files phase accumulated. -/
def mainFoldersPhase (now : PyDateTime) (cfg : Config) (target : PathState)
    (fi_cnt : Nat) (lg : List String) : RunOut :=
  if cfg.rm_folders then
    match rm_folders_in now cfg.path target cfg.rm_folders_after cfg.dryrun with
    | .error e => ⟨target, some e, fi_cnt, 0, lg ++ ["Cleaning folders..."]⟩
    | .ok o => ⟨.directory o.children, none, fi_cnt, o.cnt,
        lg ++ ["Cleaning folders..."] ++ o.log ++
          ["Removed " ++ toString o.cnt ++ " folders", "Finished cleanup"]⟩
  else ⟨target, none, fi_cnt, 0, lg ++ ["Skipping folder cleanup", "Finished cleanup"]⟩

/-- `__main__` after option parsing (cleanup.py lines 179-195): print the
two header lines, validate the target path once (`raise
NotADirectoryError` otherwise, before any sweep), then run the enabled
sweeps in order; an uncaught exception aborts the remainder of the run. -/
def main_run (now : PyDateTime) (cfg : Config) (target : PathState) : RunOut :=
  let lg := ["Starting cleanup", "Cleanup for base " ++ cfg.path]
  if isDirState target then
    if cfg.rm_files then
      match rm_files_in now cfg.path target cfg.rm_files_after cfg.dryrun with
      | .error e => ⟨target, some e, 0, 0, lg ++ ["Cleaning files..."]⟩
      | .ok o => mainFoldersPhase now cfg (.directory o.children) o.cnt
          (lg ++ ["Cleaning files..."] ++ o.log ++ ["Removed " ++ toString o.cnt ++ " files"])
    else mainFoldersPhase now cfg target 0 (lg ++ ["Skipping file cleanup"])
  else ⟨target, some .notADirectoryError, 0, 0, lg⟩

/-! ## Fixture data for witnesses and counterexamples -/

/-- A fixed clock reading used by the concrete witnesses. -/
def wNow : PyDateTime := ⟨20000, 3600, 0⟩

/-- The spec's concrete scenario: a 40-day-old file, a 5-day-old file and a
15-day-old subdirectory containing one inner file. -/
def wChildren : List FsEntry :=
  [.file "a.txt" ((20000 - 40) * 86400), .file "b.txt" ((20000 - 5) * 86400),
   .dir "old_dir" ((20000 - 15) * 86400) [.file "inner" 0]]

/-! ## Fixtures for the nesting counterexample -/

/-- Clock reading for the nesting counterexample: cutoff timestamp 86399. -/
def cexNow : PyDateTime := ⟨0, 0, 0⟩

/-- One old top-level subdirectory containing one young nested file. -/
def cexChildren : List FsEntry := [.dir "d" (-1000) [.file "f" 1000000]]

/-! ## Helper lemmas about name-keyed entry lists -/

/-- Erasing the first `p`-match cannot disturb `find?` for a predicate `q`
that no `p`-match satisfies. -/
theorem find?_eraseP_of_disjoint {α : Type} (l : List α) (p q : α → Bool)
    (h : ∀ x, q x = true → p x = false) :
    (l.eraseP p).find? q = l.find? q := by
  induction l with
  | nil => rfl
  | cons a t ih =>
    by_cases hp : p a = true
    · rw [List.eraseP_cons_of_pos hp]
      have hq : ¬ q a = true := fun hqa => by rw [h a hqa] at hp; exact Bool.false_ne_true hp
      rw [List.find?_cons_of_neg _ hq]
    · rw [List.eraseP_cons_of_neg hp]
      by_cases hq : q a = true
      · rw [List.find?_cons_of_pos _ hq, List.find?_cons_of_pos _ hq]
      · rw [List.find?_cons_of_neg _ hq, List.find?_cons_of_neg _ hq, ih]

/-- With pairwise-distinct names, searching a list for an element's own name
finds exactly that element. -/
theorem find?_name_eq_self (l : List FsEntry) (e : FsEntry)
    (hnd : (l.map fsName).Nodup) (he : e ∈ l) :
    l.find? (fun x => fsName x == fsName e) = some e := by
  induction l with
  | nil => cases he
  | cons a t ih =>
    rw [List.map_cons, List.nodup_cons] at hnd
    rcases List.mem_cons.mp he with rfl | hmem
    · exact List.find?_cons_of_pos _ (by simp)
    · have hne : fsName a ≠ fsName e := fun hEq => hnd.1 (hEq ▸ List.mem_map_of_mem fsName hmem)
      rw [List.find?_cons_of_neg _ (by simp [hne])]
      exact ih hnd.2 hmem

/-- With pairwise-distinct names, two same-named members are equal. -/
theorem name_inj_of_nodup {l : List FsEntry} (hnd : (l.map fsName).Nodup)
    {x y : FsEntry} (hx : x ∈ l) (hy : y ∈ l) (h : fsName x = fsName y) : x = y := by
  have h1 := find?_name_eq_self l x hnd hx
  have h2 := find?_name_eq_self l y hnd hy
  rw [h] at h1
  exact Option.some.inj (h1.symm.trans h2)

/-- With pairwise-distinct names, erasing the first entry with a given name
is the same as filtering that name out. -/
theorem eraseP_name_eq_filter (l : List FsEntry) (n : String)
    (hnd : (l.map fsName).Nodup) :
    l.eraseP (fun x => fsName x == n) = l.filter (fun x => !(fsName x == n)) := by
  induction l with
  | nil => rfl
  | cons a t ih =>
    rw [List.map_cons, List.nodup_cons] at hnd
    by_cases ha : fsName a = n
    · rw [List.eraseP_cons_of_pos (by simp [ha]), List.filter_cons_of_neg (by simp [ha])]
      refine (List.filter_eq_self.mpr fun x hx => ?_).symm
      have : fsName x ≠ n := fun hEq =>
        hnd.1 (ha ▸ hEq ▸ List.mem_map_of_mem fsName hx)
      simp [this]
    · rw [List.eraseP_cons_of_neg (by simp [ha]), List.filter_cons_of_pos (by simp [ha])]
      rw [ih hnd.2]

/-- Distinctness of names survives `filter`. -/
theorem nodup_names_filter (l : List FsEntry) (p : FsEntry → Bool)
    (hnd : (l.map fsName).Nodup) : ((l.filter p).map fsName).Nodup :=
  ((l.filter_sublist).map fsName).nodup hnd

/-- A sublist all of whose elements satisfy `p` is a sublist of the
`p`-filtered list. -/
theorem sublist_filter_of_all {α : Type} {l₁ l₂ : List α} (p : α → Bool)
    (hs : l₁.Sublist l₂) (h : ∀ x ∈ l₁, p x = true) : l₁.Sublist (l₂.filter p) :=
  (List.filter_eq_self.mpr h) ▸ hs.filter p

/-! ## Master characterisation of the sweep loop -/

/-- Folding `rmEntryStep` over the names of a sublist `ps` of candidates of
the right kind (in a directory with pairwise-distinct child names) removes
exactly the old candidates (none in dry-run mode), counts them, logs each
with the mode's message, and age-tests every candidate exactly once. -/
theorem foldl_rmEntryStep (isKind : FsEntry → Bool) (removeMsg : String → String)
    (path : String) (rt : PyDateTime) (dry : Bool) :
    ∀ (ps : List FsEntry), ∀ (cs : List FsEntry) (c0 : Nat) (lg ts : List String),
      ps.Sublist cs → (∀ e ∈ ps, isKind e = true) → (cs.map fsName).Nodup →
      (ps.map fsName).foldl (rmEntryStep isKind removeMsg path rt dry) ⟨cs, c0, lg, ts⟩ =
        ⟨(if dry then cs else
            cs.filter fun x => !((ps.map fsName).contains (fsName x) && is_older (fsCtime x) rt)),
         c0 + (ps.filter fun e => is_older (fsCtime e) rt).length,
         lg ++ (ps.filter fun e => is_older (fsCtime e) rt).map
             (fun e => if dry then "Would remove " ++ pathJoin path (fsName e)
                       else removeMsg (pathJoin path (fsName e))),
         ts ++ ps.map fun e => pathJoin path (fsName e)⟩ := by
  intro ps
  induction ps with
  | nil =>
    intro cs c0 lg ts _ _ _
    simp
  | cons e ps ih =>
    intro cs c0 lg ts hsub hkind hnd
    have he : e ∈ cs := hsub.subset (List.mem_cons_self e ps)
    have hfind : cs.find? (fun x => fsName x == fsName e) = some e :=
      find?_name_eq_self cs e hnd he
    have hkinde : isKind e = true := hkind e (List.mem_cons_self e ps)
    have hkindps : ∀ x ∈ ps, isKind x = true :=
      fun x hx => hkind x (List.mem_cons.mpr (Or.inr hx))
    have hsub' : ps.Sublist cs := (List.sublist_cons_self e ps).trans hsub
    have hnd' : ((e :: ps).map fsName).Nodup := (hsub.map fsName).nodup hnd
    rw [List.map_cons, List.nodup_cons] at hnd'
    have hnotin : fsName e ∉ ps.map fsName := hnd'.1
    rw [List.map_cons, List.foldl_cons]
    have hstep : rmEntryStep isKind removeMsg path rt dry ⟨cs, c0, lg, ts⟩ (fsName e) =
        (if is_older (fsCtime e) rt then
          (if dry then
            ⟨cs, c0 + 1, lg ++ ["Would remove " ++ pathJoin path (fsName e)],
              ts ++ [pathJoin path (fsName e)]⟩
          else
            ⟨cs.eraseP (fun x => fsName x == fsName e), c0 + 1,
              lg ++ [removeMsg (pathJoin path (fsName e))],
              ts ++ [pathJoin path (fsName e)]⟩)
        else ⟨cs, c0, lg, ts ++ [pathJoin path (fsName e)]⟩) := by
      simp only [rmEntryStep, hfind, hkinde, if_true]
    rw [hstep]
    by_cases helig : is_older (fsCtime e) rt
    · have hlen : (e :: ps).filter (fun x => is_older (fsCtime x) rt) =
          e :: ps.filter (fun x => is_older (fsCtime x) rt) := by
        simp [List.filter_cons, helig]
      rw [if_pos helig]
      by_cases hdry : dry = true
      · subst hdry
        rw [if_pos rfl, ih cs (c0 + 1) _ _ hsub' hkindps hnd]
        simp only [if_pos rfl, SweepOut.mk.injEq, hlen]
        refine ⟨rfl, ?_, ?_, ?_⟩
        · rw [List.length_cons]
          omega
        · simp [List.append_assoc]
        · simp [List.append_assoc]
      · rw [if_neg hdry, eraseP_name_eq_filter cs (fsName e) hnd]
        have hps : ∀ x ∈ ps, (!(fsName x == fsName e)) = true := by
          intro x hx
          simp only [Bool.not_eq_eq_eq_not, Bool.not_true, beq_eq_false_iff_ne]
          exact fun hEq => hnotin (hEq ▸ List.mem_map_of_mem fsName hx)
        have hsub₁ : ps.Sublist (cs.filter fun x => !(fsName x == fsName e)) :=
          sublist_filter_of_all _ hsub' hps
        have hnd₁ := nodup_names_filter cs (fun x => !(fsName x == fsName e)) hnd
        rw [ih _ (c0 + 1) _ _ hsub₁ hkindps hnd₁]
        have hdry' : dry = false := Bool.not_eq_true dry |>.mp hdry
        subst hdry'
        simp only [if_neg (Bool.false_ne_true), SweepOut.mk.injEq, hlen]
        refine ⟨?_, ?_, ?_, ?_⟩
        · rw [List.filter_filter]
          refine List.filter_congr fun x hx => ?_
          by_cases hxe : fsName x = fsName e
          · have : x = e := name_inj_of_nodup hnd hx he hxe
            subst this
            simp [helig, hxe]
          · have hbeq : (fsName x == fsName e) = false := beq_eq_false_iff_ne.mpr hxe
            simp [hbeq, hxe]
        · rw [List.length_cons]
          omega
        · simp [List.append_assoc]
        · simp [List.append_assoc]
    · have hlen : (e :: ps).filter (fun x => is_older (fsCtime x) rt) =
          ps.filter (fun x => is_older (fsCtime x) rt) := by
        simp [List.filter_cons, helig]
      rw [if_neg helig, ih cs c0 _ _ hsub' hkindps hnd]
      simp only [SweepOut.mk.injEq, hlen]
      refine ⟨?_, ?_, ?_, ?_⟩
      · by_cases hdry : dry = true
        · simp [hdry]
        · have hdry' : dry = false := Bool.not_eq_true dry |>.mp hdry
          subst hdry'
          simp only [if_neg (Bool.false_ne_true)]
          refine List.filter_congr fun x hx => ?_
          by_cases hxe : fsName x = fsName e
          · have : x = e := name_inj_of_nodup hnd hx he hxe
            subst this
            have hne : is_older (fsCtime x) rt = false := Bool.not_eq_true _ |>.mp helig
            simp [hne, hxe]
          · have hbeq : (fsName x == fsName e) = false := beq_eq_false_iff_ne.mpr hxe
            simp [hbeq, hxe]
      · trivial
      · trivial
      · simp [List.append_assoc]

/-- For a directory with pairwise-distinct child names, a name is among the
kind-filtered candidates exactly when the entry has that kind. -/
theorem contains_filter_names (cs : List FsEntry) (isKind : FsEntry → Bool)
    (hnd : (cs.map fsName).Nodup) (x : FsEntry) (hx : x ∈ cs) :
    (((cs.filter isKind).map fsName).contains (fsName x)) = isKind x := by
  cases hk : isKind x with
  | true =>
    have hmem : fsName x ∈ (cs.filter isKind).map fsName :=
      List.mem_map_of_mem fsName (List.mem_filter.mpr ⟨hx, hk⟩)
    exact List.elem_iff.mpr hmem
  | false =>
    cases hc : ((cs.filter isKind).map fsName).contains (fsName x) with
    | false => rfl
    | true =>
      have hmem : fsName x ∈ (cs.filter isKind).map fsName := List.elem_iff.mp hc
      obtain ⟨y, hy, hyx⟩ := List.mem_map.mp hmem
      have hyc : y ∈ cs := (List.mem_filter.mp hy).1
      have hxy : y = x := name_inj_of_nodup hnd hyc hx hyx
      subst hxy
      rw [(List.mem_filter.mp hy).2] at hk
      exact Bool.noConfusion hk

/-- The sweep loop over all candidates of a kind, in closed form. -/
theorem sweep_fold_spec (isKind : FsEntry → Bool) (removeMsg : String → String)
    (path : String) (rt : PyDateTime) (dry : Bool) (cs : List FsEntry)
    (hnd : (cs.map fsName).Nodup) :
    ((cs.filter isKind).map fsName).foldl (rmEntryStep isKind removeMsg path rt dry)
        ⟨cs, 0, [], []⟩ =
      ⟨(if dry then cs else cs.filter fun e => !(isKind e && is_older (fsCtime e) rt)),
       (cs.filter fun e => isKind e && is_older (fsCtime e) rt).length,
       (cs.filter fun e => isKind e && is_older (fsCtime e) rt).map
           (fun e => if dry then "Would remove " ++ pathJoin path (fsName e)
                     else removeMsg (pathJoin path (fsName e))),
       (cs.filter isKind).map fun e => pathJoin path (fsName e)⟩ := by
  rw [foldl_rmEntryStep isKind removeMsg path rt dry (cs.filter isKind) cs 0 [] []
      (List.filter_sublist cs) (fun e he => (List.mem_filter.mp he).2) hnd]
  have hff : (cs.filter isKind).filter (fun e => is_older (fsCtime e) rt)
      = cs.filter (fun e => isKind e && is_older (fsCtime e) rt) := by
    rw [List.filter_filter]
    exact List.filter_congr fun x _ => Bool.and_comm _ _
  simp only [SweepOut.mk.injEq, hff, List.nil_append, Nat.zero_add]
  refine ⟨?_, ?_, ?_, ?_⟩
  · by_cases hdry : dry = true
    · simp [hdry]
    · have hdry' : dry = false := Bool.not_eq_true dry |>.mp hdry
      subst hdry'
      simp only [if_neg (Bool.false_ne_true)]
      exact List.filter_congr fun x hx => by
        rw [contains_filter_names cs isKind hnd x hx]
  all_goals trivial

/-- `rm_files_in` on an existing directory with pairwise-distinct child
names, in closed form: it removes (or, in dry-run mode, only reports)
exactly the regular-file children older than the cutoff, returns their
count, and age-tests exactly the regular-file children. -/
theorem rm_files_in_spec (now : PyDateTime) (path : String) (cs : List FsEntry)
    (days : Int) (dry : Bool) (hnd : (cs.map fsName).Nodup) :
    rm_files_in now path (.directory cs) days dry = .ok
      ⟨(if dry then cs else
          cs.filter fun e => !(isFileEntry e && is_older (fsCtime e) (get_time_before now days))),
       (cs.filter fun e => isFileEntry e && is_older (fsCtime e) (get_time_before now days)).length,
       (cs.filter fun e => isFileEntry e && is_older (fsCtime e) (get_time_before now days)).map
           (fun e => if dry then "Would remove " ++ pathJoin path (fsName e)
                     else fileRemoveMsg (pathJoin path (fsName e))),
       (cs.filter fun e => isFileEntry e).map fun e => pathJoin path (fsName e)⟩ := by
  have h := sweep_fold_spec isFileEntry fileRemoveMsg path (get_time_before now days) dry cs hnd
  simp only [rm_files_in, get_files_by_path, stateChildren]
  rw [h]

/-- `rm_folders_in` on an existing directory with pairwise-distinct child
names, in closed form. -/
theorem rm_folders_in_spec (now : PyDateTime) (path : String) (cs : List FsEntry)
    (days : Int) (dry : Bool) (hnd : (cs.map fsName).Nodup) :
    rm_folders_in now path (.directory cs) days dry = .ok
      ⟨(if dry then cs else
          cs.filter fun e => !(isDirEntry e && is_older (fsCtime e) (get_time_before now days))),
       (cs.filter fun e => isDirEntry e && is_older (fsCtime e) (get_time_before now days)).length,
       (cs.filter fun e => isDirEntry e && is_older (fsCtime e) (get_time_before now days)).map
           (fun e => if dry then "Would remove " ++ pathJoin path (fsName e)
                     else dirRemoveMsg (pathJoin path (fsName e))),
       (cs.filter fun e => isDirEntry e).map fun e => pathJoin path (fsName e)⟩ := by
  have h := sweep_fold_spec isDirEntry dirRemoveMsg path (get_time_before now days) dry cs hnd
  simp only [rm_folders_in, get_subdirs_by_path, stateChildren]
  rw [h]

/-! ## Lemmas about nested descendants -/

theorem mem_descList {e : FsEntry} :
    ∀ (l : List FsEntry), e ∈ descList l ↔ ∃ c ∈ l, e ∈ strictDescendants c := by
  intro l
  induction l with
  | nil => simp [descList]
  | cons a t ih => simp [descList, List.mem_append, ih]

/-- Dropping only childless entries (e.g. regular files) from a list does
not change the nested descendants. -/
theorem descList_filter (l : List FsEntry) (p : FsEntry → Bool)
    (h : ∀ c ∈ l, p c = false → strictDescendants c = []) :
    descList (l.filter p) = descList l := by
  induction l with
  | nil => rfl
  | cons a t ih =>
    have ht := fun c hc => h c (List.mem_cons.mpr (Or.inr hc))
    by_cases hp : p a = true
    · rw [List.filter_cons_of_pos hp]
      simp [descList, ih ht]
    · have hp' : p a = false := Bool.not_eq_true _ |>.mp hp
      rw [List.filter_cons_of_neg (by simp [hp'])]
      simp [descList, h a (List.mem_cons_self a t) hp', ih ht]

/-! ## Log-line helpers -/

theorem head?_append_left {α : Type} (l₁ l₂ : List α) (c : α)
    (h : l₁.head? = some c) : (l₁ ++ l₂).head? = some c := by
  cases l₁ with
  | nil => cases h
  | cons a t => cases h; rfl

theorem log_head_wouldRemove (p : String) :
    ("Would remove " ++ p).data.head? = some 'W' := by
  rw [String.data_append]
  exact head?_append_left _ _ _ rfl

theorem log_head_fileRemoveMsg (p : String) :
    (fileRemoveMsg p).data.head? = some 'R' := by
  show (("Removing file " ++ p) ++ " ...").data.head? = some 'R'
  rw [String.data_append, String.data_append]
  exact head?_append_left _ _ _ (head?_append_left _ _ _ rfl)

theorem log_head_dirRemoveMsg (p : String) :
    (dirRemoveMsg p).data.head? = some 'R' := by
  show (("Removing directory " ++ p) ++ " ...").data.head? = some 'R'
  rw [String.data_append, String.data_append]
  exact head?_append_left _ _ _ (head?_append_left _ _ _ rfl)

/-! ## Claims -/

/-- C4: for every integer `days` and a fixed clock reading,
`get_time_before now days` is 23:59:59 of the current calendar day minus
`days` days, with sub-second precision discarded, and
`get_time_before now (days + 1)` is exactly 24 hours (86400 seconds)
earlier than `get_time_before now days`. -/
theorem get_time_before_end_of_day_shift (now : PyDateTime) (days : Int) :
    get_time_before now days =
      { day := now.day - days, sec := 23 * 3600 + 59 * 60 + 59, micro := 0 } ∧
    pyTimestamp (get_time_before now (days + 1)) =
      pyTimestamp (get_time_before now days) - 86400 := by
  constructor
  · simp only [get_time_before, pyAddDays, truncToEndOfDay, PyDateTime.mk.injEq]
    refine ⟨by omega, by trivial, by trivial⟩
  · simp only [get_time_before, pyAddDays, truncToEndOfDay, pyTimestamp]
    omega

/-- C3: the age test is strict: an entry whose status-change time exactly
equals the cutoff's timestamp is not old (so it is neither removed nor
counted), while an entry whose status-change time is strictly earlier than
the cutoff's timestamp is old and hence eligible for removal. -/
theorem is_older_strict_boundary (ct : Int) (comp : PyDateTime) :
    (ct = pyTimestamp comp → is_older ct comp = false) ∧
    (ct < pyTimestamp comp → is_older ct comp = true) := by
  constructor
  · intro h
    simp [is_older, h]
  · intro h
    simp [is_older, h]

theorem is_older_strict_boundary_witness :
    ((86399 : Int) = pyTimestamp ⟨0, 86399, 0⟩ ∧ is_older 86399 ⟨0, 86399, 0⟩ = false) ∧
    ((86398 : Int) < pyTimestamp ⟨0, 86399, 0⟩ ∧ is_older 86398 ⟨0, 86399, 0⟩ = true) :=
  ⟨⟨by decide, (is_older_strict_boundary 86399 ⟨0, 86399, 0⟩).1 (by decide)⟩,
   ⟨by decide, (is_older_strict_boundary 86398 ⟨0, 86399, 0⟩).2 (by decide)⟩⟩

/-- C1: after a non-dry-run sweep over an existing directory (whose child
names are pairwise distinct, as on a real filesystem), the returned count
equals the number of immediate children of the requested kind -- regular
files for `rm_files_in`, subdirectories for `rm_folders_in` -- whose
status-change time is strictly earlier than the computed cutoff. -/
theorem removed_count_eq_old_children (now : PyDateTime) (path : String)
    (cs : List FsEntry) (fdays ddays : Int) (hnd : (cs.map fsName).Nodup) :
    outCnt (rm_files_in now path (.directory cs) fdays false)
      = (cs.filter fun e =>
          isFileEntry e && is_older (fsCtime e) (get_time_before now fdays)).length ∧
    outCnt (rm_folders_in now path (.directory cs) ddays false)
      = (cs.filter fun e =>
          isDirEntry e && is_older (fsCtime e) (get_time_before now ddays)).length := by
  rw [rm_files_in_spec now path cs fdays false hnd,
      rm_folders_in_spec now path cs ddays false hnd]
  exact ⟨rfl, rfl⟩

theorem removed_count_eq_old_children_witness :
    ((wChildren.map fsName).Nodup) ∧
    outCnt (rm_files_in wNow "/tmp/root/" (.directory wChildren) 30 false)
      = (wChildren.filter fun e =>
          isFileEntry e && is_older (fsCtime e) (get_time_before wNow 30)).length ∧
    outCnt (rm_folders_in wNow "/tmp/root/" (.directory wChildren) 10 false)
      = (wChildren.filter fun e =>
          isDirEntry e && is_older (fsCtime e) (get_time_before wNow 10)).length :=
  ⟨by decide,
   (removed_count_eq_old_children wNow "/tmp/root/" wChildren 30 10 (by decide)).1,
   (removed_count_eq_old_children wNow "/tmp/root/" wChildren 30 10 (by decide)).2⟩

/-- C2: a dry-run sweep deletes nothing -- the directory's children
(names, kinds, timestamps, nested contents) are returned unchanged --
while its count equals the count of the otherwise-identical non-dry-run
sweep; every per-entry line of a dry run starts with the `'W'` of
`"Would remove"` and every per-entry line of a real run starts with the
`'R'` of `"Removing"`, so the two reports are distinguishable. -/
theorem dry_run_frame_count_report (now : PyDateTime) (path : String)
    (cs : List FsEntry) (fdays ddays : Int) (hnd : (cs.map fsName).Nodup) :
    outChildren (rm_files_in now path (.directory cs) fdays true) = cs ∧
    outChildren (rm_folders_in now path (.directory cs) ddays true) = cs ∧
    outCnt (rm_files_in now path (.directory cs) fdays true)
      = outCnt (rm_files_in now path (.directory cs) fdays false) ∧
    outCnt (rm_folders_in now path (.directory cs) ddays true)
      = outCnt (rm_folders_in now path (.directory cs) ddays false) ∧
    (∀ l ∈ outLog (rm_files_in now path (.directory cs) fdays true),
      l.data.head? = some 'W') ∧
    (∀ l ∈ outLog (rm_folders_in now path (.directory cs) ddays true),
      l.data.head? = some 'W') ∧
    (∀ l ∈ outLog (rm_files_in now path (.directory cs) fdays false),
      l.data.head? = some 'R') ∧
    (∀ l ∈ outLog (rm_folders_in now path (.directory cs) ddays false),
      l.data.head? = some 'R') := by
  rw [rm_files_in_spec now path cs fdays true hnd,
      rm_folders_in_spec now path cs ddays true hnd,
      rm_files_in_spec now path cs fdays false hnd,
      rm_folders_in_spec now path cs ddays false hnd]
  refine ⟨by trivial, by trivial, by trivial, by trivial, ?_, ?_, ?_, ?_⟩
  · intro l hl
    obtain ⟨e, _, rfl⟩ := List.mem_map.mp hl
    exact log_head_wouldRemove _
  · intro l hl
    obtain ⟨e, _, rfl⟩ := List.mem_map.mp hl
    exact log_head_wouldRemove _
  · intro l hl
    obtain ⟨e, _, rfl⟩ := List.mem_map.mp hl
    exact log_head_fileRemoveMsg _
  · intro l hl
    obtain ⟨e, _, rfl⟩ := List.mem_map.mp hl
    exact log_head_dirRemoveMsg _

theorem dry_run_frame_count_report_witness :
    ((wChildren.map fsName).Nodup) ∧
    outChildren (rm_files_in wNow "/tmp/root/" (.directory wChildren) 30 true) = wChildren ∧
    outCnt (rm_files_in wNow "/tmp/root/" (.directory wChildren) 30 true)
      = outCnt (rm_files_in wNow "/tmp/root/" (.directory wChildren) 30 false) ∧
    (∀ l ∈ outLog (rm_files_in wNow "/tmp/root/" (.directory wChildren) 30 true),
      l.data.head? = some 'W') :=
  ⟨by decide,
   (dry_run_frame_count_report wNow "/tmp/root/" wChildren 30 10 (by decide)).1,
   (dry_run_frame_count_report wNow "/tmp/root/" wChildren 30 10 (by decide)).2.2.1,
   (dry_run_frame_count_report wNow "/tmp/root/" wChildren 30 10 (by decide)).2.2.2.2.1⟩

/-- A directory entry is never a regular file. -/
theorem not_file_of_dir (e : FsEntry) (h : isDirEntry e = true) : isFileEntry e = false := by
  cases e with
  | file n c => cases h
  | dir n c cs => rfl

/-- A regular-file entry is never a directory. -/
theorem not_dir_of_file (e : FsEntry) (h : isFileEntry e = true) : isDirEntry e = false := by
  cases e with
  | file n c => rfl
  | dir n c cs => cases h

/-- The loop body leaves the state untouched when the looked-up entry is
missing or fails the kind re-verification. -/
theorem rmEntryStep_skip (isKind : FsEntry → Bool) (removeMsg : String → String)
    (path : String) (rt : PyDateTime) (dry : Bool) (st : SweepOut) (n : String)
    (h : ∀ e, st.children.find? (fun x => fsName x == n) = some e → isKind e = false) :
    rmEntryStep isKind removeMsg path rt dry st n = st := by
  cases hf : st.children.find? (fun x => fsName x == n) with
  | none => simp [rmEntryStep, hf]
  | some e => simp [rmEntryStep, hf, h e hf]

/-- C5: kind isolation: for any thresholds and either mode, a files sweep
never deletes a directory child and a folders sweep never deletes a
regular-file child; and any candidate whose on-disk kind re-verification
fails (the entry at that name is gone or of the wrong kind) is skipped
silently by the loop body -- the state, and so the counter, is unchanged. -/
theorem kind_isolation_and_reverify_skip (now : PyDateTime) (path : String)
    (cs : List FsEntry) (fdays ddays : Int) (dry : Bool) (rt : PyDateTime)
    (hnd : (cs.map fsName).Nodup) :
    (∀ e ∈ cs, isDirEntry e = true →
      e ∈ outChildren (rm_files_in now path (.directory cs) fdays dry)) ∧
    (∀ e ∈ cs, isFileEntry e = true →
      e ∈ outChildren (rm_folders_in now path (.directory cs) ddays dry)) ∧
    (∀ st n, (∀ e, st.children.find? (fun x => fsName x == n) = some e →
        isFileEntry e = false) →
      rmEntryStep isFileEntry fileRemoveMsg path rt dry st n = st) ∧
    (∀ st n, (∀ e, st.children.find? (fun x => fsName x == n) = some e →
        isDirEntry e = false) →
      rmEntryStep isDirEntry dirRemoveMsg path rt dry st n = st) := by
  refine ⟨?_, ?_, ?_, ?_⟩
  · intro e he hd
    rw [rm_files_in_spec now path cs fdays dry hnd]
    show e ∈ (if dry then cs
      else cs.filter fun x => !(isFileEntry x && is_older (fsCtime x) (get_time_before now fdays)))
    by_cases hdry : dry = true
    · simp [hdry, he]
    · have hdry' : dry = false := Bool.not_eq_true dry |>.mp hdry
      subst hdry'
      simp only [if_neg (Bool.false_ne_true)]
      exact List.mem_filter.mpr ⟨he, by simp [not_file_of_dir e hd]⟩
  · intro e he hf
    rw [rm_folders_in_spec now path cs ddays dry hnd]
    show e ∈ (if dry then cs
      else cs.filter fun x => !(isDirEntry x && is_older (fsCtime x) (get_time_before now ddays)))
    by_cases hdry : dry = true
    · simp [hdry, he]
    · have hdry' : dry = false := Bool.not_eq_true dry |>.mp hdry
      subst hdry'
      simp only [if_neg (Bool.false_ne_true)]
      exact List.mem_filter.mpr ⟨he, by simp [not_dir_of_file e hf]⟩
  · intro st n h
    exact rmEntryStep_skip isFileEntry fileRemoveMsg path rt dry st n h
  · intro st n h
    exact rmEntryStep_skip isDirEntry dirRemoveMsg path rt dry st n h

theorem kind_isolation_and_reverify_skip_witness :
    ((wChildren.map fsName).Nodup) ∧
    (FsEntry.dir "old_dir" ((20000 - 15) * 86400) [FsEntry.file "inner" 0]
      ∈ outChildren (rm_files_in wNow "/tmp/root/" (.directory wChildren) 30 false)) ∧
    (FsEntry.file "b.txt" ((20000 - 5) * 86400)
      ∈ outChildren (rm_folders_in wNow "/tmp/root/" (.directory wChildren) 10 false)) ∧
    rmEntryStep isFileEntry fileRemoveMsg "/tmp/root/" wNow false
      ⟨[FsEntry.dir "d" 0 []], 0, [], []⟩ "d" = ⟨[FsEntry.dir "d" 0 []], 0, [], []⟩ ∧
    rmEntryStep isDirEntry dirRemoveMsg "/tmp/root/" wNow false
      ⟨[FsEntry.file "f" 0], 0, [], []⟩ "f" = ⟨[FsEntry.file "f" 0], 0, [], []⟩ :=
  ⟨by decide,
   (kind_isolation_and_reverify_skip wNow "/tmp/root/" wChildren 30 10 false wNow
      (by decide)).1 _ (by simp [wChildren]) rfl,
   (kind_isolation_and_reverify_skip wNow "/tmp/root/" wChildren 30 10 false wNow
      (by decide)).2.1 _ (by simp [wChildren]) rfl,
   (kind_isolation_and_reverify_skip wNow "/tmp/root/" wChildren 30 10 false wNow
      (by decide)).2.2.1 ⟨[FsEntry.dir "d" 0 []], 0, [], []⟩ "d"
      (fun e he => by cases Option.some.inj he; rfl),
   (kind_isolation_and_reverify_skip wNow "/tmp/root/" wChildren 30 10 false wNow
      (by decide)).2.2.2 ⟨[FsEntry.file "f" 0], 0, [], []⟩ "f"
      (fun e he => by cases Option.some.inj he; rfl)⟩

/-- C8: idempotence: running a non-dry-run sweep to completion and then
immediately re-running a sweep with the identical policy and the same
cutoff over the resulting directory yields a removal count of zero, for
both kinds. -/
theorem sweep_idempotent (now : PyDateTime) (path : String) (cs : List FsEntry)
    (fdays ddays : Int) (hnd : (cs.map fsName).Nodup) :
    outCnt (rm_files_in now path
      (.directory (outChildren (rm_files_in now path (.directory cs) fdays false)))
      fdays false) = 0 ∧
    outCnt (rm_folders_in now path
      (.directory (outChildren (rm_folders_in now path (.directory cs) ddays false)))
      ddays false) = 0 := by
  constructor
  · have h1 : outChildren (rm_files_in now path (.directory cs) fdays false)
        = cs.filter (fun e => !(isFileEntry e && is_older (fsCtime e) (get_time_before now fdays))) := by
      rw [rm_files_in_spec now path cs fdays false hnd]
      rfl
    rw [h1, rm_files_in_spec now path _ fdays false (nodup_names_filter cs _ hnd)]
    show (List.filter _ (List.filter _ cs)).length = 0
    rw [List.filter_filter]
    simp
  · have h1 : outChildren (rm_folders_in now path (.directory cs) ddays false)
        = cs.filter (fun e => !(isDirEntry e && is_older (fsCtime e) (get_time_before now ddays))) := by
      rw [rm_folders_in_spec now path cs ddays false hnd]
      rfl
    rw [h1, rm_folders_in_spec now path _ ddays false (nodup_names_filter cs _ hnd)]
    show (List.filter _ (List.filter _ cs)).length = 0
    rw [List.filter_filter]
    simp

theorem sweep_idempotent_witness :
    ((wChildren.map fsName).Nodup) ∧
    outCnt (rm_files_in wNow "/tmp/root/"
      (.directory (outChildren (rm_files_in wNow "/tmp/root/" (.directory wChildren) 30 false)))
      30 false) = 0 ∧
    outCnt (rm_folders_in wNow "/tmp/root/"
      (.directory (outChildren (rm_folders_in wNow "/tmp/root/" (.directory wChildren) 10 false)))
      10 false) = 0 :=
  ⟨by decide,
   (sweep_idempotent wNow "/tmp/root/" wChildren 30 10 (by decide)).1,
   (sweep_idempotent wNow "/tmp/root/" wChildren 30 10 (by decide)).2⟩

/-- C6 counterexample: on a missing path the listers raise `StopIteration`
(the error-swallowing `os.walk` generator yields nothing and `next` fails),
not `NotADirectoryError` as the claim states; likewise on a plain file. -/
theorem lister_error_not_notADirectoryError :
    get_files_by_path .missing = .error .stopIteration ∧
    get_subdirs_by_path (.plainFile 0) = .error .stopIteration ∧
    PyErr.stopIteration ≠ PyErr.notADirectoryError :=
  ⟨rfl, rfl, by decide⟩

/-- C6 (amended): for every path that does not exist or is not a
directory, `get_files_by_path` and `get_subdirs_by_path` fail by raising
an exception -- `StopIteration`, from the exhausted `os.walk` generator --
which surfaces to the calling sweep and aborts it.  (`NotADirectoryError`
is raised only by `__main__`'s up-front validation.) -/
theorem lister_fails_stopIteration (p : PathState) (h : isDirState p = false)
    (now : PyDateTime) (path : String) (days : Int) (dry : Bool) :
    get_files_by_path p = .error .stopIteration ∧
    get_subdirs_by_path p = .error .stopIteration ∧
    rm_files_in now path p days dry = .error .stopIteration ∧
    rm_folders_in now path p days dry = .error .stopIteration := by
  cases p with
  | missing => exact ⟨rfl, rfl, rfl, rfl⟩
  | plainFile c => exact ⟨rfl, rfl, rfl, rfl⟩
  | directory cs => simp [isDirState] at h

theorem lister_fails_stopIteration_witness :
    isDirState PathState.missing = false ∧
    (get_files_by_path .missing = .error .stopIteration ∧
     get_subdirs_by_path .missing = .error .stopIteration ∧
     rm_files_in wNow "/tmp/" .missing 30 false = .error .stopIteration ∧
     rm_folders_in wNow "/tmp/" .missing 30 false = .error .stopIteration) :=
  ⟨rfl, lister_fails_stopIteration .missing rfl wNow "/tmp/" 30 false⟩

/-- C7: the orchestrator validates the target path once, before either
policy runs: on any invalid target it stops with `NotADirectoryError`,
the target's state is untouched (nothing is deleted), both counts are
zero, and only the two header lines were printed -- neither the files
sweep nor the folders sweep is attempted. -/
theorem main_validates_path_first (now : PyDateTime) (cfg : Config)
    (target : PathState) (h : isDirState target = false) :
    main_run now cfg target =
      ⟨target, some .notADirectoryError, 0, 0,
       ["Starting cleanup", "Cleanup for base " ++ cfg.path]⟩ := by
  simp [main_run, h]

theorem main_validates_path_first_witness :
    isDirState PathState.missing = false ∧
    main_run wNow defaultConfig PathState.missing =
      ⟨PathState.missing, some .notADirectoryError, 0, 0,
       ["Starting cleanup", "Cleanup for base " ++ defaultConfig.path]⟩ :=
  ⟨rfl, main_validates_path_first wNow defaultConfig PathState.missing rfl⟩

/-! ## Claims C9 / C10 -/

/-- C9 counterexample: an entry nested two levels below the target can be
removed by a sweep.  The young nested file (status-change time after the
cutoff) disappears because the folders sweep deletes its old parent
directory recursively (`shutil.rmtree`), refuting "never removed by any
sweep, regardless of their age". -/
theorem deep_entry_removed_cex :
    FsEntry.file "f" 1000000 ∈ descList cexChildren ∧
    is_older 1000000 (get_time_before cexNow 0) = false ∧
    outChildren (rm_folders_in cexNow "/tmp/" (.directory cexChildren) 0 false) = [] ∧
    descList (outChildren (rm_folders_in cexNow "/tmp/" (.directory cexChildren) 0 false)) = [] := by
  refine ⟨?_, by decide, rfl, rfl⟩
  simp [cexChildren, descList, strictDescendants]

/-- C9 (amended): the sweeps age-test exactly the direct children of their
kind, so entries nested two or more levels below the target are never
age-tested; the files sweep never removes a nested entry; and a nested
entry is removed by the folders sweep only when some old top-level
subdirectory -- one whose own status-change time is before the cutoff --
contains it and is deleted recursively. -/
theorem non_recursion_amended (now : PyDateTime) (path : String)
    (cs : List FsEntry) (fdays ddays : Int) (dry : Bool)
    (hnd : (cs.map fsName).Nodup) :
    outTested (rm_files_in now path (.directory cs) fdays dry)
      = (cs.filter fun e => isFileEntry e).map (fun e => pathJoin path (fsName e)) ∧
    outTested (rm_folders_in now path (.directory cs) ddays dry)
      = (cs.filter fun e => isDirEntry e).map (fun e => pathJoin path (fsName e)) ∧
    descList (outChildren (rm_files_in now path (.directory cs) fdays false)) = descList cs ∧
    (∀ e, e ∈ descList cs →
      e ∉ descList (outChildren (rm_folders_in now path (.directory cs) ddays false)) →
      ∃ d ∈ cs, isDirEntry d = true ∧
        is_older (fsCtime d) (get_time_before now ddays) = true ∧
        e ∈ strictDescendants d) := by
  refine ⟨?_, ?_, ?_, ?_⟩
  · rw [rm_files_in_spec now path cs fdays dry hnd]
    rfl
  · rw [rm_folders_in_spec now path cs ddays dry hnd]
    rfl
  · have h1 : outChildren (rm_files_in now path (.directory cs) fdays false)
        = cs.filter (fun e => !(isFileEntry e && is_older (fsCtime e) (get_time_before now fdays))) := by
      rw [rm_files_in_spec now path cs fdays false hnd]
      rfl
    rw [h1]
    refine descList_filter cs _ fun c hc hcf => ?_
    cases c with
    | file n ct => rfl
    | dir n ct l => simp [isFileEntry] at hcf
  · intro e he hnot
    have h1 : outChildren (rm_folders_in now path (.directory cs) ddays false)
        = cs.filter (fun x => !(isDirEntry x && is_older (fsCtime x) (get_time_before now ddays))) := by
      rw [rm_folders_in_spec now path cs ddays false hnd]
      rfl
    rw [h1] at hnot
    obtain ⟨c, hc, hce⟩ := (mem_descList cs).mp he
    by_cases hp : (!(isDirEntry c && is_older (fsCtime c) (get_time_before now ddays))) = true
    · exact absurd ((mem_descList _).mpr ⟨c, List.mem_filter.mpr ⟨hc, hp⟩, hce⟩) hnot
    · cases hb : (isDirEntry c && is_older (fsCtime c) (get_time_before now ddays)) with
      | false => exact absurd (by rw [hb]; rfl) hp
      | true =>
        have hparts : isDirEntry c = true ∧
            is_older (fsCtime c) (get_time_before now ddays) = true := by simpa using hb
        exact ⟨c, hc, hparts.1, hparts.2, hce⟩

theorem non_recursion_amended_witness :
    ((cexChildren.map fsName).Nodup) ∧
    outTested (rm_folders_in cexNow "/tmp/" (.directory cexChildren) 0 false)
      = (cexChildren.filter fun e => isDirEntry e).map (fun e => pathJoin "/tmp/" (fsName e)) ∧
    (∃ d ∈ cexChildren, isDirEntry d = true ∧
      is_older (fsCtime d) (get_time_before cexNow 0) = true ∧
      FsEntry.file "f" 1000000 ∈ strictDescendants d) :=
  ⟨by decide,
   (non_recursion_amended cexNow "/tmp/" cexChildren 0 0 false (by decide)).2.1,
   (non_recursion_amended cexNow "/tmp/" cexChildren 0 0 false (by decide)).2.2.2
     (FsEntry.file "f" 1000000)
     (by simp [cexChildren, descList, strictDescendants])
     (by simp [show outChildren (rm_folders_in cexNow "/tmp/" (PathState.directory cexChildren) 0 false)
           = ([] : List FsEntry) from rfl, descList])⟩

/-- The long-option dispatch never changes the configured path. -/
theorem applyLongOpt_path (c : Config) (opt : List String) (c' : Config)
    (h : applyLongOpt c opt = some c') : c'.path = c.path := by
  match opt with
  | [] =>
    simp only [applyLongOpt] at h
    cases Option.some.inj h
    rfl
  | [o] =>
    simp only [applyLongOpt] at h
    split_ifs at h <;> (cases Option.some.inj h; rfl)
  | o :: v :: rest =>
    simp only [applyLongOpt] at h
    split_ifs at h
    · cases Option.some.inj h; rfl
    · rcases Option.map_eq_some'.mp h with ⟨n, _, rfl⟩; rfl
    · cases Option.some.inj h; rfl
    · rcases Option.map_eq_some'.mp h with ⟨n, _, rfl⟩; rfl
    · cases Option.some.inj h; rfl
    · cases Option.some.inj h; rfl

/-- C10: every command-line token beginning with `-` -- including the bare
`--` and unrecognised long options such as `--unknown=value` -- is never
assigned as the target path (whenever the iteration succeeds, `path` is
unchanged); and when no recognised long-option name matches, the token is
skipped silently: no error is raised and the whole configuration,
including the default path, is returned unchanged. -/
theorem dash_args_never_set_path (c : Config) (arg : String) :
    (pyTake arg 1 = "-" → ∀ c', processArg c arg = some c' → c'.path = c.path) ∧
    (pyTake arg 1 = "-" →
      (pyTake arg 2 = "--" → (pySplitEq (pyDrop arg 2)).headD "" ∉ recognizedLongOpts) →
      processArg c arg = some c) := by
  constructor
  · intro h1 c' hp
    unfold processArg at hp
    by_cases he : arg = "--"
    · rw [if_pos he] at hp
      cases Option.some.inj hp
      rfl
    · rw [if_neg he] at hp
      by_cases h2 : pyTake arg 2 = "--"
      · rw [if_pos h2] at hp
        cases ha : applyLongOpt c (pySplitEq (pyDrop arg 2)) with
        | none =>
          rw [ha] at hp
          cases hp
        | some c1 =>
          rw [ha, Option.some_bind, if_pos h1] at hp
          rw [← Option.some.inj hp]
          exact applyLongOpt_path c _ c1 ha
      · rw [if_neg h2, Option.some_bind, if_pos h1] at hp
        cases Option.some.inj hp
        rfl
  · intro h1 hrec
    unfold processArg
    by_cases he : arg = "--"
    · rw [if_pos he]
    · rw [if_neg he]
      by_cases h2 : pyTake arg 2 = "--"
      · have hopt : applyLongOpt c (pySplitEq (pyDrop arg 2)) = some c := by
          have hn := hrec h2
          cases hsp : pySplitEq (pyDrop arg 2) with
          | nil => rfl
          | cons o rest =>
            rw [hsp] at hn
            have ho : o ∉ recognizedLongOpts := by simpa using hn
            simp only [recognizedLongOpts, List.mem_cons, List.mem_singleton] at ho
            push_neg at ho
            cases rest with
            | nil =>
              simp [applyLongOpt, ho.1, ho.2.2.1, ho.2.2.2.2]
            | cons v rest2 =>
              simp [applyLongOpt, ho.1, ho.2.1, ho.2.2.1, ho.2.2.2.1, ho.2.2.2.2]
        rw [if_pos h2, hopt, Option.some_bind, if_pos h1]
      · rw [if_neg h2, Option.some_bind, if_pos h1]

theorem dash_args_never_set_path_witness :
    pyTake "--unknown=value" 1 = "-" ∧
    (pyTake "--unknown=value" 2 = "--" →
      (pySplitEq (pyDrop "--unknown=value" 2)).headD "" ∉ recognizedLongOpts) ∧
    processArg defaultConfig "--unknown=value" = some defaultConfig :=
  ⟨by decide, by decide,
   (dash_args_never_set_path defaultConfig "--unknown=value").2 (by decide) (by decide)⟩
